import Mathlib

/-!
Shallow embedding of `src/Grid2D.js` (class `Grid2D`).

Modelling conventions:
* JS numbers are modelled as exact rationals `ℚ` (all the arithmetic the
  claims exercise — `+`, `-`, `*`, `/`, `Math.floor`, `Math.ceil`, `Math.abs`,
  comparisons — is exact on the inputs used here).
* Row/column indices are `ℤ`.
* A JS expression that evaluates to `undefined`, or a statement that throws
  (`TypeError` from indexing into `undefined`, `ReferenceError` from an
  unbound identifier), is modelled by `none` of an `Option` result.
* `this.data[i]` on a JS array yields `undefined` for a negative, fractional
  or too-large index; `jsGet` / `qIndex` model exactly that.
* Fields the constructor derives and stores (`right`, `bottom`,
  `num_columns`, `num_rows`) are immutable after construction, so they are
  modelled as functions of the stored configuration.
-/

universe u

/-- State of a `Grid2D` instance: the constructor arguments plus the mutable
`data` array (a row-major list of rows). -/
structure Grid2D (α : Type u) where
  width : ℚ
  height : ℚ
  cellW : ℚ
  cellH : ℚ
  left : ℚ
  top : ℚ
  data : List (List α)

namespace Grid2D

variable {α : Type u}

/-- `this.right = left + width` (set in the constructor, never mutated). -/
def right (g : Grid2D α) : ℚ := g.left + g.width

/-- `this.bottom = top + height`. -/
def bottom (g : Grid2D α) : ℚ := g.top + g.height

/-- `this.num_columns = Math.ceil(width / cellWidth)`. -/
def num_columns (g : Grid2D α) : ℤ := ⌈g.width / g.cellW⌉

/-- `this.num_rows = Math.ceil(height / cellHeight)`. -/
def num_rows (g : Grid2D α) : ℤ := ⌈g.height / g.cellH⌉

/-- JS array read `l[i]` with an integer index: `undefined` (`none`) when the
index is negative or beyond the end. -/
def jsGet (l : List α) (i : ℤ) : Option α :=
  if 0 ≤ i then l.get? i.toNat else none

/-- JS array read `l[i]` with an arbitrary numeric index: `undefined` unless
the index is a non-negative integer within range. -/
def qIndex (l : List α) (i : ℚ) : Option α :=
  if 0 ≤ i ∧ i.den = 1 then l.get? i.num.toNat else none

/-- The double read `this.data[row][col]`; `none` when either index misses
(in JS the outer miss makes the inner read throw a `TypeError`, an inner
miss yields `undefined`). -/
def cellRead (g : Grid2D α) (row col : ℤ) : Option α :=
  match jsGet g.data row with
  | none => none
  | some r => jsGet r col

/-- `this.data[r][c]` where the source uses arbitrary numeric indices
(as in `laplace3x3`, whose clamped center is a coordinate, not an index). -/
def qRead (g : Grid2D α) (i j : ℚ) : Option α :=
  match qIndex g.data i with
  | none => none
  | some r => qIndex r j

/-- `cellInGrid(row, col)` (source lines 346-350). -/
def cellInGrid (g : Grid2D α) (row col : ℤ) : Bool :=
  decide (0 ≤ row) && decide (row < g.num_rows) &&
    decide (0 ≤ col) && decide (col < g.num_columns)

/-- `pointInGrid(x, y, margin = 0)` (source lines 352-359): closed box. -/
def pointInGrid (g : Grid2D α) (x y margin : ℚ) : Bool :=
  decide (g.left + margin ≤ x) && decide (x ≤ g.right - margin) &&
    decide (g.top + margin ≤ y) && decide (y ≤ g.bottom - margin)

/-- Shape invariant established by the constructor: `data` has `num_rows`
rows of `num_columns` cells each. -/
def WF (g : Grid2D α) : Prop :=
  g.data.length = g.num_rows.toNat ∧ ∀ r ∈ g.data, r.length = g.num_columns.toNat

instance (g : Grid2D α) : Decidable (WF g) := by
  unfold WF; infer_instance

/-- The constructor (source lines 13-42) for a primitive (non-object)
`initialValue`: `deepCopy` returns such a value unchanged, so every cell
holds `init`.  (The composite case, where `deepCopy` fails, is modelled
separately on `JSVal` below.) -/
def mkGrid (width height : ℚ) (init : α) (cellW cellH left top : ℚ) : Grid2D α :=
  { width := width, height := height, cellW := cellW, cellH := cellH,
    left := left, top := top,
    data := List.replicate (⌈height / cellH⌉).toNat
      (List.replicate (⌈width / cellW⌉).toNat init) }

/-- `getValue(row, col)` (source lines 50-55). -/
def getValue (g : Grid2D α) (row col : ℤ) : Option α :=
  if cellInGrid g row col then cellRead g row col else none

/-- `setValue(row, col, value)` (source lines 63-67). -/
def setValue (g : Grid2D α) (row col : ℤ) (v : α) : Grid2D α :=
  if cellInGrid g row col then
    { g with data := g.data.set row.toNat ((g.data.getD row.toNat []).set col.toNat v) }
  else g

/-- `getCellAtPoint(x, y)` (source lines 109-116). -/
def getCellAtPoint (g : Grid2D α) (x y : ℚ) : Option (ℤ × ℤ) :=
  if pointInGrid g x y 0 then
    some (⌊(y - g.top) / g.cellH⌋, ⌊(x - g.left) / g.cellW⌋)
  else none

/-- `getCellCenter(row, col)` (source lines 123-131). -/
def getCellCenter (g : Grid2D α) (row col : ℤ) : Option (ℚ × ℚ) :=
  if cellInGrid g row col then
    some (g.left + col * g.cellW + g.cellW / 2, g.top + row * g.cellH + g.cellH / 2)
  else none

/-- `getCellPoint(row, col, w_disp, h_disp)` (source lines 140-150).  Note
the source guards with `this.pointInGrid(row, col)` — the cell INDICES are
passed to the coordinate-space predicate.  When that (wrong) guard passes
but the cell is invalid, `getCellCenter` yields `undefined` and the JS code
throws a `TypeError` indexing it (modelled as `none`). -/
def getCellPoint (g : Grid2D α) (row col : ℤ) (w_disp h_disp : ℚ) : Option (ℚ × ℚ) :=
  if pointInGrid g (row : ℚ) (col : ℚ) 0 then
    match getCellCenter g row col with
    | some cc => some (cc.1 + (w_disp - 1/2) * g.cellW, cc.2 + (h_disp - 1/2) * g.cellH)
    | none => none
  else none

/-- Number of iterations of the JS loop `for (let i = 0; i <= steps; i++)`. -/
def iterCount (steps : ℚ) : ℕ :=
  if 0 ≤ steps then (⌊steps⌋).toNat + 1 else 0

/-- The sampling loop body of `getCellsInSegment` (source lines 234-242):
starting from `(X, Y)`, run `n` iterations, each collecting the cell at the
current point (skipping points outside the grid) and advancing by
`(Xinc, Yinc)`. -/
def segLoop (g : Grid2D α) (Xinc Yinc : ℚ) : ℕ → ℚ → ℚ → List (ℤ × ℤ)
  | 0, _, _ => []
  | n + 1, X, Y =>
    match getCellAtPoint g X Y with
    | some c => c :: segLoop g Xinc Yinc n (X + Xinc) (Y + Yinc)
    | none => segLoop g Xinc Yinc n (X + Xinc) (Y + Yinc)

/-- `getCellsInSegment(p1, p2, step)` (source lines 212-244).  The `step`
parameter is accepted but never used by the source.  `steps` is chosen by
comparing the RAW extents `|dx| > |dy|` and then dividing by the matching
cell dimension. -/
def getCellsInSegment (g : Grid2D α) (p1 p2 : ℚ × ℚ) (step : ℚ) : List (ℤ × ℤ) :=
  let dx := p2.1 - p1.1
  let dy := p2.2 - p1.2
  let steps := if |dx| > |dy| then |dx| / g.cellW else |dy| / g.cellH
  segLoop g (dx / steps) (dy / steps) (iterCount steps) p1.1 p1.2

/-- The `for (const cell of cells)` loop of `trueInASegment` (source lines
202-210): reads `this.data[cell[0]][cell[1]]` for each collected cell;
`none` when such a read is invalid (JS: `TypeError` for a bad row index,
`condition(undefined)` for a bad column index). -/
def segAll (g : Grid2D α) (cond : α → Bool) : List (ℤ × ℤ) → Option Bool
  | [] => some true
  | rc :: rest =>
    match cellRead g rc.1 rc.2 with
    | none => none
    | some v => if cond v then segAll g cond rest else some false

/-- `trueInASegment(p1, p2, step, condition)` (source lines 202-210). -/
def trueInASegment (g : Grid2D α) (p1 p2 : ℚ × ℚ) (step : ℚ) (cond : α → Bool) :
    Option Bool :=
  segAll g cond (getCellsInSegment g p1 p2 step)

/-- Inner column loop of `trueForAtLeastOneNeighbor` (exclusive end bound):
`n` iterations starting at column `c` of row `r`. -/
def neighborColsAny (g : Grid2D α) (cond : α → Bool) (r : ℤ) : ℕ → ℤ → Option Bool
  | 0, _ => some false
  | n + 1, c =>
    match cellRead g r c with
    | none => none
    | some v => if cond v then some true else neighborColsAny g cond r n (c + 1)

/-- Outer row loop of `trueForAtLeastOneNeighbor` (exclusive end bound). -/
def neighborRowsAny (g : Grid2D α) (cond : α → Bool) (startC : ℤ) (colFuel : ℕ) :
    ℕ → ℤ → Option Bool
  | 0, _ => some false
  | n + 1, r =>
    match neighborColsAny g cond r colFuel startC with
    | none => none
    | some true => some true
    | some false => neighborRowsAny g cond startC colFuel n (r + 1)

/-- `trueForAtLeastOneNeighbor(row, col, distance, condition)` (source lines
292-311).  End bounds are clamped to `num_columns` / `num_rows` and the
loops use STRICT comparison (`r < endRow`, `c < endColumn`). -/
def trueForAtLeastOneNeighbor (g : Grid2D α) (row col dist : ℤ) (cond : α → Bool) :
    Option Bool :=
  if dist ≤ 0 then some true
  else
    let startColumn := if col - dist > 0 then col - dist else 0
    let startRow := if row - dist > 0 then row - dist else 0
    let endColumn := if col + dist > g.num_columns then g.num_columns else col + dist
    let endRow := if row + dist > g.num_rows then g.num_rows else row + dist
    neighborRowsAny g cond startColumn (endColumn - startColumn).toNat
      (endRow - startRow).toNat startRow

/-- Inner column loop of `trueForEveryNeighbor` (inclusive end bound in the
source; the fuel already accounts for the `+ 1`). -/
def neighborColsAll (g : Grid2D α) (cond : α → Bool) (r : ℤ) : ℕ → ℤ → Option Bool
  | 0, _ => some true
  | n + 1, c =>
    match cellRead g r c with
    | none => none
    | some v => if cond v then neighborColsAll g cond r n (c + 1) else some false

/-- Outer row loop of `trueForEveryNeighbor`. -/
def neighborRowsAll (g : Grid2D α) (cond : α → Bool) (startC : ℤ) (colFuel : ℕ) :
    ℕ → ℤ → Option Bool
  | 0, _ => some true
  | n + 1, r =>
    match neighborColsAll g cond r colFuel startC with
    | none => none
    | some false => some false
    | some true => neighborRowsAll g cond startC colFuel n (r + 1)

/-- `trueForEveryNeighbor(row, col, distance, condition)` (source lines
173-194).  End bounds are clamped to `num_columns - 1` / `num_rows - 1` and
the loops use INCLUSIVE comparison (`r <= endRow`, `c <= endColumn`). -/
def trueForEveryNeighbor (g : Grid2D α) (row col dist : ℤ) (cond : α → Bool) :
    Option Bool :=
  if dist ≤ 0 then some true
  else
    let startColumn := if col - dist > 0 then col - dist else 0
    let startRow := if row - dist > 0 then row - dist else 0
    let endColumn := if col + dist ≥ g.num_columns then g.num_columns - 1 else col + dist
    let endRow := if row + dist ≥ g.num_rows then g.num_rows - 1 else row + dist
    neighborRowsAll g cond startColumn (endColumn - startColumn + 1).toNat
      (endRow - startRow + 1).toNat startRow

/-- Inner column loop of `findFirstCell`: `n` iterations from column `c` of
row `r`, returning the first index pair satisfying `cond`. -/
def colScan (cond : ℤ → ℤ → Bool) (r : ℤ) : ℕ → ℤ → Option (ℤ × ℤ)
  | 0, _ => none
  | n + 1, c => if cond r c then some (r, c) else colScan cond r n (c + 1)

/-- Outer row loop of `findFirstCell`: note the inner loop restarts at
`startCol` with the SAME fuel on every row. -/
def rowScan (cond : ℤ → ℤ → Bool) (startCol : ℤ) (colFuel : ℕ) :
    ℕ → ℤ → Option (ℤ × ℤ)
  | 0, _ => none
  | n + 1, r =>
    match colScan cond r colFuel startCol with
    | some rc => some rc
    | none => rowScan cond startCol colFuel n (r + 1)

/-- `findFirstCell(startRow, startColumn, condition)` (source lines
330-339). -/
def findFirstCell (g : Grid2D α) (startRow startCol : ℤ) (cond : ℤ → ℤ → Bool) :
    Option (ℤ × ℤ) :=
  rowScan cond startCol (g.num_columns - startCol).toNat
    (g.num_rows - startRow).toNat startRow

/-- `laplace3x3(row, col, weights, Fn)` (source lines 368-396).  The source
clamps by comparing the ROW INDEX with the COORDINATES `this.top` /
`this.bottom - 1` (and the column index with `this.left` /
`this.right - 1`), so the clamped center `r`/`c` is a rational in general;
the nine reads use `qRead`.  `none` models the reads JS cannot complete
(out-of-range row: `TypeError`; out-of-range column: `undefined` fed to
`Fn`, poisoning the sum with `NaN`). -/
def laplace3x3 (g : Grid2D α) (row col : ℤ) (weights : List ℚ) (fn : α → ℚ) :
    Option ℚ :=
  let r : ℚ := if (row : ℚ) = g.top then g.top + 1
    else if (row : ℚ) = g.bottom - 1 then g.bottom - 2 else (row : ℚ)
  let c : ℚ := if (col : ℚ) = g.left then g.left + 1
    else if (col : ℚ) = g.right - 1 then g.right - 2 else (col : ℚ)
  match qRead g (r - 1) (c - 1), qRead g (r - 1) c, qRead g (r - 1) (c + 1),
      qRead g r (c - 1), qRead g r c, qRead g r (c + 1),
      qRead g (r + 1) (c - 1), qRead g (r + 1) c, qRead g (r + 1) (c + 1) with
  | some v0, some v1, some v2, some v3, some v4, some v5, some v6, some v7, some v8 =>
    some (fn v0 * weights.getD 0 0 + fn v1 * weights.getD 1 0 +
      fn v2 * weights.getD 2 0 + fn v3 * weights.getD 3 0 +
      fn v4 * weights.getD 4 0 + fn v5 * weights.getD 5 0 +
      fn v6 * weights.getD 6 0 + fn v7 * weights.getD 7 0 +
      fn v8 * weights.getD 8 0)
  | _, _, _, _, _, _, _, _, _ => none

end Grid2D

/-- A JS runtime value, as far as `deepCopy` discriminates them. -/
inductive JSVal : Type where
  | num (q : ℚ)
  | str (s : String)
  | boolean (b : Bool)
  | undef
  | null
  | date (time : ℤ)
  | arr (elems : List JSVal)
  | obj (entries : List (String × JSVal))

namespace JSVal

/-- `deepCopy(obj)` (source lines 398-420).  The primitive and `Date`
branches behave as documented.  The `Array` and `Object` branches call the
BARE identifier `deepCopy` (not `this.deepCopy`) inside their `reduce`
callbacks; no such binding exists in the module, so the first element or
key processed throws a `ReferenceError` (`none`).  An empty array/object
never runs the callback, so those succeed. -/
def deepCopy : JSVal → Option JSVal
  | num q => some (num q)            -- typeof ≠ 'object': returned as-is
  | str s => some (str s)
  | boolean b => some (boolean b)
  | undef => some undef
  | null => some null                -- obj === null: returned as-is
  | date t => some (date t)          -- new Date(obj.getTime())
  | arr [] => some (arr [])          -- reduce over []: callback never runs
  | arr (_ :: _) => none             -- callback calls unbound `deepCopy`
  | obj [] => some (obj [])
  | obj (_ :: _) => none

/-- One row of the constructor loop: `num_columns` pushes of
`this.deepCopy(initialValue)`. -/
def copyRow (init : JSVal) : ℕ → Option (List JSVal)
  | 0 => some []
  | n + 1 =>
    match deepCopy init with
    | none => none
    | some v =>
      match copyRow init n with
      | none => none
      | some rest => some (v :: rest)

/-- The constructor's row loop. -/
def copyRows (init : JSVal) (cols : ℕ) : ℕ → Option (List (List JSVal))
  | 0 => some []
  | n + 1 =>
    match copyRow init cols with
    | none => none
    | some r =>
      match copyRows init cols n with
      | none => none
      | some rest => some (r :: rest)

/-- The full constructor `new Grid2D(width, height, initialValue, cellWidth,
cellHeight, left, top)` over JS values: `none` when construction throws
(which happens in the `deepCopy` of a composite `initialValue`). -/
def mkGridJS (width height : ℚ) (init : JSVal) (cellW cellH left top : ℚ) :
    Option (Grid2D JSVal) :=
  match copyRows init (⌈width / cellW⌉).toNat (⌈height / cellH⌉).toNat with
  | none => none
  | some d => some ⟨width, height, cellW, cellH, left, top, d⟩

end JSVal

open Grid2D

/-! ### Spec-side definitions

These follow the WORDS of the spec (or of an amended claim), to be compared
with the source-derived definitions above. -/

/-- From the spec's words for `getCellsInSegment`: sample the straight line
from `p1` to `p2` at increments derived from
`steps = max(|dx|/cellWidth, |dy|/cellHeight)`, collect the cell containing
each sample, skipping samples outside the grid, in traversal order. -/
def segmentWalkSpec (g : Grid2D ℤ) (p1 p2 : ℚ × ℚ) : List (ℤ × ℤ) :=
  let dx := p2.1 - p1.1
  let dy := p2.2 - p1.2
  let steps := max (|dx| / g.cellW) (|dy| / g.cellH)
  (List.range (iterCount steps)).filterMap
    (fun i : ℕ => getCellAtPoint g (p1.1 + (i : ℚ) * (dx / steps))
      (p1.2 + (i : ℚ) * (dy / steps)))

/-- The amended sampling walk: identical to `segmentWalkSpec` except that
`steps` is the source's choice — `|dx|/cellWidth` when `|dx| > |dy|`, else
`|dy|/cellHeight`. -/
def segmentWalkFixed {α : Type u} (g : Grid2D α) (p1 p2 : ℚ × ℚ) : List (ℤ × ℤ) :=
  let dx := p2.1 - p1.1
  let dy := p2.2 - p1.2
  let steps := if |dx| > |dy| then |dx| / g.cellW else |dy| / g.cellH
  (List.range (iterCount steps)).filterMap
    (fun i : ℕ => getCellAtPoint g (p1.1 + (i : ℚ) * (dx / steps))
      (p1.2 + (i : ℚ) * (dy / steps)))

/-- From the claim's words for `findFirstCell`: the scan order — rows from
`startRow` upward, and within EVERY scanned row the columns from `startCol`
upward. -/
def scanOrder {α : Type u} (g : Grid2D α) (startRow startCol : ℤ) : List (ℤ × ℤ) :=
  (List.range (g.num_rows - startRow).toNat).flatMap
    (fun i : ℕ => (List.range (g.num_columns - startCol).toNat).map
      (fun j : ℕ => (startRow + (i : ℤ), startCol + (j : ℤ))))

/-! ### Concrete grids used by witnesses and counterexamples -/

/-- `new Grid2D(4, 4)` with the integer initial value 0: a 4×4 grid of unit
cells at the origin. -/
def gUnit : Grid2D ℤ := mkGrid 4 4 0 1 1 0 0

/-- `new Grid2D(4, 4, 0, 1, 1, 10, 0)`: a 4×4 unit-cell grid whose left
edge is at x = 10. -/
def gLeft : Grid2D ℤ := mkGrid 4 4 0 1 1 10 0

/-- `new Grid2D(6, 6, 0, 2, 2)`: a 3×3 grid of 2×2 cells at the origin. -/
def gCoarse : Grid2D ℤ := mkGrid 6 6 0 2 2 0 0

/-- `new Grid2D(4, 4, 0, 2, 1)`: 2 columns of width 2, 4 rows of height 1. -/
def gWide : Grid2D ℤ := mkGrid 4 4 0 2 1 0 0

/-- `gUnit` after `setValue(2, 2, 1)`: a single marked cell at (2, 2).
(Written as the resulting state; `gMark_reachable` below proves it equals
`setValue gUnit 2 2 1`.) -/
def gMark : Grid2D ℤ :=
  { width := 4, height := 4, cellW := 1, cellH := 1, left := 0, top := 0,
    data := [[0, 0, 0, 0], [0, 0, 0, 0], [0, 0, 1, 0], [0, 0, 0, 0]] }

/-! ### Helper lemmas -/

section ListHelpers

variable {β : Type u}

theorem list_get?_of_lt (l : List β) (n : ℕ) (h : n < l.length) :
    ∃ a, l.get? n = some a := by
  induction l generalizing n with
  | nil => simp at h
  | cons x xs ih =>
    cases n with
    | zero => exact ⟨x, rfl⟩
    | succ m => exact ih m (by simpa using h)

theorem list_get?_set_same (l : List β) (n : ℕ) (a : β) (h : n < l.length) :
    (l.set n a).get? n = some a := by
  induction l generalizing n with
  | nil => simp at h
  | cons x xs ih =>
    cases n with
    | zero => rfl
    | succ m => exact ih m (by simpa using h)

theorem list_mem_of_get? {l : List β} {n : ℕ} {a : β} (h : l.get? n = some a) :
    a ∈ l := by
  induction l generalizing n with
  | nil => simp [List.get?] at h
  | cons x xs ih =>
    cases n with
    | zero => simp [List.get?] at h; simp [h]
    | succ m => exact List.mem_cons_of_mem _ (ih h)

theorem list_getD_of_get? {l : List β} {n : ℕ} {a d : β} (h : l.get? n = some a) :
    l.getD n d = a := by
  simp [List.getD, ← List.get?_eq_getElem?, h]

end ListHelpers

/-- Bridge between fuel-counted integer loops and integer intervals:
`lo + j` for `j < (hi - lo).toNat` ranges exactly over `lo ≤ x < hi`. -/
theorem int_range_exists (lo hi : ℤ) (P : ℤ → Prop) :
    (∃ j : ℕ, j < (hi - lo).toNat ∧ P (lo + (j : ℤ))) ↔
      ∃ x : ℤ, lo ≤ x ∧ x < hi ∧ P x := by
  constructor
  · rintro ⟨j, hj, hP⟩
    exact ⟨lo + (j : ℤ), by omega, by omega, hP⟩
  · rintro ⟨x, h1, h2, hP⟩
    refine ⟨(x - lo).toNat, by omega, ?_⟩
    have : lo + ((x - lo).toNat : ℤ) = x := by omega
    rw [this]; exact hP

namespace Grid2D

variable {α : Type u}

theorem cellInGrid_iff (g : Grid2D α) (row col : ℤ) :
    cellInGrid g row col = true ↔
      0 ≤ row ∧ row < g.num_rows ∧ 0 ≤ col ∧ col < g.num_columns := by
  simp [cellInGrid, and_assoc]

theorem pointInGrid_iff (g : Grid2D α) (x y margin : ℚ) :
    pointInGrid g x y margin = true ↔
      g.left + margin ≤ x ∧ x ≤ g.right - margin ∧
        g.top + margin ≤ y ∧ y ≤ g.bottom - margin := by
  simp [pointInGrid, and_assoc]

/-- Under `WF`, an in-grid cell read always succeeds. -/
theorem cellRead_isSome_of_WF (g : Grid2D α) (row col : ℤ) (hWF : WF g)
    (h0r : 0 ≤ row) (h1r : row < g.num_rows) (h0c : 0 ≤ col)
    (h1c : col < g.num_columns) : ∃ v, cellRead g row col = some v := by
  obtain ⟨hlen, hrows⟩ := hWF
  have hr : row.toNat < g.data.length := by omega
  obtain ⟨r, hrEq⟩ := list_get?_of_lt g.data row.toNat hr
  have hrLen : r.length = g.num_columns.toNat := hrows r (list_mem_of_get? hrEq)
  have hc : col.toNat < r.length := by omega
  obtain ⟨v, hvEq⟩ := list_get?_of_lt r col.toNat hc
  refine ⟨v, ?_⟩
  unfold cellRead jsGet
  rw [if_pos h0r, hrEq]
  show (if 0 ≤ col then r.get? col.toNat else none) = some v
  rw [if_pos h0c, hvEq]

theorem mkGrid_WF (width height : ℚ) (init : α) (cellW cellH left top : ℚ) :
    WF (mkGrid width height init cellW cellH left top) := by
  constructor
  · simp [mkGrid, num_rows]
  · intro r hr
    simp [mkGrid] at hr
    simp [hr, num_columns, mkGrid]

end Grid2D

/-! ### Claim theorems -/

/-- Claim C8: for every in-bounds `(row, col)` and value `v`, `getValue` after
`setValue(row, col, v)` returns `v`; for out-of-bounds `(row, col)`,
`setValue` leaves every existing cell unchanged (silent no-op) and
`getValue` returns absent (`none`). -/
theorem claim8_set_get (g : Grid2D ℤ) (row col : ℤ) (v : ℤ) :
    (WF g → cellInGrid g row col = true →
      getValue (setValue g row col v) row col = some v) ∧
    (cellInGrid g row col = false →
      setValue g row col v = g ∧ getValue g row col = none) := by
  constructor
  · intro hWF hin
    obtain ⟨h0r, h1r, h0c, h1c⟩ := (cellInGrid_iff g row col).mp hin
    obtain ⟨hlen, hrows⟩ := hWF
    have hr : row.toNat < g.data.length := by omega
    obtain ⟨r, hrEq⟩ := list_get?_of_lt g.data row.toNat hr
    have hrLen : r.length = g.num_columns.toNat := hrows r (list_mem_of_get? hrEq)
    have hrowD : g.data.getD row.toNat [] = r := list_getD_of_get? hrEq
    have hc : col.toNat < r.length := by omega
    have hset : setValue g row col v =
        { g with data := g.data.set row.toNat (r.set col.toNat v) } := by
      rw [setValue, if_pos hin, hrowD]
    rw [hset]
    have hin2 : cellInGrid { g with data := g.data.set row.toNat (r.set col.toNat v) }
        row col = true := hin
    rw [getValue, if_pos hin2]
    unfold cellRead jsGet
    rw [if_pos h0r, list_get?_set_same _ _ _ hr]
    show (if 0 ≤ col then (r.set col.toNat v).get? col.toNat else none) = some v
    rw [if_pos h0c, list_get?_set_same _ _ _ hc]
  · intro hout
    constructor
    · simp [setValue, hout]
    · simp [getValue, hout]

/-- Witness for C8 at a concrete grid: the 10×10 grid of the spec scenario
(`Grid2D(100,100,0,10,10)`), cell (5,5) set to 7; and the out-of-bounds cell
(11,0). -/
theorem claim8_set_get_witness :
    getValue (setValue (mkGrid 100 100 (0:ℤ) 10 10 0 0) 5 5 7) 5 5 = some 7 ∧
      (setValue (mkGrid 100 100 (0:ℤ) 10 10 0 0) 11 0 7 =
          mkGrid 100 100 (0:ℤ) 10 10 0 0 ∧
        getValue (mkGrid 100 100 (0:ℤ) 10 10 0 0) 11 0 = none) := by
  have hrows : (mkGrid 100 100 (0:ℤ) 10 10 0 0).num_rows = 10 := by
    show ⌈(100:ℚ)/10⌉ = 10
    rw [Int.ceil_eq_iff] <;> norm_num
  have hcols : (mkGrid 100 100 (0:ℤ) 10 10 0 0).num_columns = 10 := by
    show ⌈(100:ℚ)/10⌉ = 10
    rw [Int.ceil_eq_iff] <;> norm_num
  refine ⟨(claim8_set_get _ 5 5 7).1 (mkGrid_WF 100 100 0 10 10 0 0) ?_,
    (claim8_set_get _ 11 0 7).2 ?_⟩
  · rw [cellInGrid_iff, hrows, hcols]; omega
  · rw [← Bool.not_eq_true, cellInGrid_iff, hrows]
    omega
/-- The inner column loop of `findFirstCell` is `find?` over the columns
`startCol + j`, `j < n`, of row `r`. -/
theorem colScan_eq_find (cond : ℤ → ℤ → Bool) (r : ℤ) :
    ∀ (n : ℕ) (c : ℤ), colScan cond r n c =
      ((List.range n).map (fun j : ℕ => (r, c + (j : ℤ)))).find?
        (fun rc => cond rc.1 rc.2) := by
  intro n
  induction n with
  | zero => intro c; simp [colScan]
  | succ n ih =>
    intro c
    rw [List.range_succ_eq_map, List.map_cons, List.map_map, colScan]
    have hfe : ((fun j : ℕ => (r, c + (j : ℤ))) ∘ Nat.succ) =
        fun j : ℕ => (r, (c + 1) + (j : ℤ)) := by
      funext j
      simp only [Function.comp_apply, Prod.mk.injEq, true_and]
      push_cast; ring
    by_cases h : cond r c
    · rw [if_pos h, List.find?_cons_of_pos]
      · simp
      · simpa using h
    · rw [if_neg h, List.find?_cons_of_neg, hfe, ← ih (c + 1)]
      simpa using h

/-- The outer row loop of `findFirstCell` is `find?` over the row-major list
of scanned cells, the inner start bound `startCol` applying on every row. -/
theorem rowScan_eq_find (cond : ℤ → ℤ → Bool) (startCol : ℤ) (colFuel : ℕ) :
    ∀ (n : ℕ) (r : ℤ), rowScan cond startCol colFuel n r =
      ((List.range n).flatMap (fun i : ℕ => (List.range colFuel).map
        (fun j : ℕ => (r + (i : ℤ), startCol + (j : ℤ))))).find?
          (fun rc => cond rc.1 rc.2) := by
  intro n
  induction n with
  | zero => intro r; simp [rowScan]
  | succ n ih =>
    intro r
    rw [List.range_succ_eq_map, List.flatMap_cons, List.find?_append, List.flatMap_map]
    have hcomp : (fun a : ℕ => (List.range colFuel).map
        (fun j : ℕ => (r + (a.succ : ℤ), startCol + (j : ℤ)))) =
        fun i : ℕ => (List.range colFuel).map
          (fun j : ℕ => ((r + 1) + (i : ℤ), startCol + (j : ℤ))) := by
      funext i
      have hj : (fun j : ℕ => (r + (i.succ : ℤ), startCol + (j : ℤ))) =
          fun j : ℕ => ((r + 1) + (i : ℤ), startCol + (j : ℤ)) := by
        funext j
        simp only [Prod.mk.injEq, and_true]
        push_cast; ring
      rw [hj]
    rw [hcomp, ← ih (r + 1)]
    have hhead : (fun j : ℕ => (r + ((0 : ℕ) : ℤ), startCol + (j : ℤ))) =
        fun j : ℕ => (r, startCol + (j : ℤ)) := by
      funext j; simp
    show (match colScan cond r colFuel startCol with
      | some rc => some rc
      | none => rowScan cond startCol colFuel n (r + 1)) = _
    rw [hhead, ← colScan_eq_find]
    cases hcs : colScan cond r colFuel startCol with
    | none => simp
    | some rc => simp

/-- Claim C10: `findFirstCell(startRow, startCol, condition)` scans rows in
increasing order, applying `startCol` as the column start bound on EVERY
scanned row, and returns the first scanned `(row, col)` satisfying the
condition — `none` when no scanned cell satisfies it.  Stated as: the
function equals `find?` over the scan order written from the claim's
words. -/
theorem claim10_findFirstCell (g : Grid2D ℤ) (startRow startCol : ℤ)
    (cond : ℤ → ℤ → Bool) :
    findFirstCell g startRow startCol cond =
      (scanOrder g startRow startCol).find? (fun rc => cond rc.1 rc.2) := by
  rw [findFirstCell, rowScan_eq_find, scanOrder]

theorem segLoop_zero {α : Type u} (g : Grid2D α) (Xinc Yinc X Y : ℚ) :
    segLoop g Xinc Yinc 0 X Y = [] := rfl

theorem segLoop_succ {α : Type u} (g : Grid2D α) (Xinc Yinc : ℚ) (n : ℕ) (X Y : ℚ) :
    segLoop g Xinc Yinc (n + 1) X Y =
      match getCellAtPoint g X Y with
      | some c => c :: segLoop g Xinc Yinc n (X + Xinc) (Y + Yinc)
      | none => segLoop g Xinc Yinc n (X + Xinc) (Y + Yinc) := rfl

/-- The iterative sampling loop accumulates exactly the closed-form samples
`(X + i·Xinc, Y + i·Yinc)`, keeping the cells of the in-grid ones in
order. -/
theorem segLoop_eq_filterMap {α : Type u} (g : Grid2D α) (Xinc Yinc : ℚ) :
    ∀ (n : ℕ) (X Y : ℚ), segLoop g Xinc Yinc n X Y =
      (List.range n).filterMap
        (fun i : ℕ => getCellAtPoint g (X + (i : ℚ) * Xinc) (Y + (i : ℚ) * Yinc)) := by
  intro n
  induction n with
  | zero => intro X Y; simp [segLoop]
  | succ n ih =>
    intro X Y
    rw [List.range_succ_eq_map, List.filterMap_cons, List.filterMap_map]
    have hhead : getCellAtPoint g (X + ((0 : ℕ) : ℚ) * Xinc)
        (Y + ((0 : ℕ) : ℚ) * Yinc) = getCellAtPoint g X Y := by
      norm_num
    have hcomp : ((fun i : ℕ => getCellAtPoint g (X + (i : ℚ) * Xinc)
        (Y + (i : ℚ) * Yinc)) ∘ Nat.succ) =
        fun i : ℕ => getCellAtPoint g ((X + Xinc) + (i : ℚ) * Xinc)
          ((Y + Yinc) + (i : ℚ) * Yinc) := by
      funext i
      show getCellAtPoint g (X + (i.succ : ℚ) * Xinc) (Y + (i.succ : ℚ) * Yinc) = _
      have hx : X + (i.succ : ℚ) * Xinc = (X + Xinc) + (i : ℚ) * Xinc := by
        push_cast; ring
      have hy : Y + (i.succ : ℚ) * Yinc = (Y + Yinc) + (i : ℚ) * Yinc := by
        push_cast; ring
      rw [hx, hy]
    rw [hhead, hcomp, segLoop_succ, ← ih (X + Xinc) (Y + Yinc)]
    cases getCellAtPoint g X Y with
    | none => simp
    | some c => simp

/-- Claim C2 (amended): `getCellsInSegment(p1, p2, step)` walks the straight
line from `p1` to `p2`, sampling at increments determined by
`steps = |dx|/cellWidth` when `|dx| > |dy|`, else `|dy|/cellHeight` (the
axis of greater RAW coordinate extent, divided by that axis's cell size —
not the spec's `max` of the two cell-unit extents), and collects the grid
cell containing each sampled point, skipping samples outside the grid, in
traversal order from `p1` to `p2`, without deduplicating consecutive
repeats; the `step` argument is ignored. -/
theorem claim2_segment_walk (g : Grid2D ℤ) (p1 p2 : ℚ × ℚ) (step : ℚ) :
    getCellsInSegment g p1 p2 step = segmentWalkFixed g p1 p2 := by
  simp only [getCellsInSegment, segmentWalkFixed]
  rw [segLoop_eq_filterMap]

/-- Evaluation helper: `getCellAtPoint` at an in-box point. -/
theorem getCellAtPoint_eval {α : Type u} (g : Grid2D α) (x y : ℚ) (r c : ℤ)
    (h1 : g.left ≤ x) (h2 : x ≤ g.right) (h3 : g.top ≤ y) (h4 : y ≤ g.bottom)
    (hr : ⌊(y - g.top) / g.cellH⌋ = r) (hc : ⌊(x - g.left) / g.cellW⌋ = c) :
    getCellAtPoint g x y = some (r, c) := by
  have hpt : pointInGrid g x y 0 = true := by
    rw [pointInGrid_iff]
    exact ⟨by linarith, by linarith, by linarith, by linarith⟩
  rw [getCellAtPoint, if_pos hpt, hr, hc]

/-- Evaluation helper: unfold `getCellsInSegment` once the `steps` value is
known. -/
theorem getCellsInSegment_unfold {α : Type u} (g : Grid2D α) (x1 y1 x2 y2 step S : ℚ)
    (hS : (if |x2 - x1| > |y2 - y1| then |x2 - x1| / g.cellW
      else |y2 - y1| / g.cellH) = S) :
    getCellsInSegment g (x1, y1) (x2, y2) step =
      segLoop g ((x2 - x1) / S) ((y2 - y1) / S) (iterCount S) x1 y1 := by
  subst hS; rfl

/-- Evaluation helper: unfold `segmentWalkSpec` once the `steps` value is
known. -/
theorem segmentWalkSpec_unfold (g : Grid2D ℤ) (x1 y1 x2 y2 S : ℚ)
    (hS : max (|x2 - x1| / g.cellW) (|y2 - y1| / g.cellH) = S) :
    segmentWalkSpec g (x1, y1) (x2, y2) =
      (List.range (iterCount S)).filterMap
        (fun i : ℕ => getCellAtPoint g (x1 + (i : ℚ) * ((x2 - x1) / S))
          (y1 + (i : ℚ) * ((y2 - y1) / S))) := by
  subst hS; rfl

/-- Counterexample to C2 as stated: on `gWide` (cells 2 wide, 1 tall) the
segment from (0,0) to (3,2) has `|dx| > |dy|`, so the source uses
`steps = |dx|/cellWidth = 3/2` — but the claimed formula gives
`steps = max(3/2, 2/1) = 2`.  The resulting cell sequences differ. -/
theorem claim2_cex_parts :
    getCellsInSegment gWide (0, 0) (3, 2) 1 = [(0, 0), (1, 1)] ∧
      segmentWalkSpec gWide (0, 0) (3, 2) = [(0, 0), (1, 0), (2, 1)] := by
  have ha3 : |(3:ℚ) - 0| = 3 := by
    rw [abs_of_nonneg (by norm_num : (0:ℚ) ≤ 3 - 0)]; norm_num
  have ha2 : |(2:ℚ) - 0| = 2 := by
    rw [abs_of_nonneg (by norm_num : (0:ℚ) ≤ 2 - 0)]; norm_num
  have hc00 : getCellAtPoint gWide 0 0 = some (0, 0) := by
    refine getCellAtPoint_eval gWide 0 0 0 0 ?_ ?_ ?_ ?_ ?_ ?_ <;>
      norm_num [gWide, mkGrid, Grid2D.right, Grid2D.bottom]
  constructor
  · have hS : (if |(3:ℚ) - 0| > |(2:ℚ) - 0| then |(3:ℚ) - 0| / gWide.cellW
        else |(2:ℚ) - 0| / gWide.cellH) = 3 / 2 := by
      rw [ha3, ha2, if_pos (by norm_num : (3:ℚ) > 2)]
      show (3:ℚ) / 2 = 3 / 2
      norm_num
    have hIC : iterCount (3 / 2) = 2 := by
      rw [iterCount, if_pos (by norm_num : (0:ℚ) ≤ 3 / 2),
        show ⌊(3:ℚ) / 2⌋ = 1 from by rw [Int.floor_eq_iff]; norm_num]
      rfl
    have hXinc : ((3:ℚ) - 0) / (3 / 2) = 2 := by norm_num
    have hYinc : ((2:ℚ) - 0) / (3 / 2) = 4 / 3 := by norm_num
    rw [getCellsInSegment_unfold gWide 0 0 3 2 1 (3 / 2) hS, hXinc, hYinc, hIC]
    have hc11 : getCellAtPoint gWide (0 + 2) (0 + 4 / 3) = some (1, 1) := by
      refine getCellAtPoint_eval gWide (0 + 2) (0 + 4 / 3) 1 1 ?_ ?_ ?_ ?_ ?_ ?_ <;>
        norm_num [gWide, mkGrid, Grid2D.right, Grid2D.bottom, Int.floor_eq_iff]
    rw [show (2:ℕ) = 1 + 1 from rfl, segLoop_succ, hc00]
    show (0, 0) :: segLoop gWide 2 (4 / 3) 1 (0 + 2) (0 + 4 / 3) = _
    rw [segLoop_succ, hc11]
    show (0, 0) :: (1, 1) :: segLoop gWide 2 (4 / 3) 0 (0 + 2 + 2) (0 + 4 / 3 + 4 / 3) = _
    rw [segLoop_zero]
  · have hS : max (|(3:ℚ) - 0| / gWide.cellW) (|(2:ℚ) - 0| / gWide.cellH) = 2 := by
      rw [ha3, ha2]
      show max ((3:ℚ) / 2) (2 / 1) = 2
      rw [show ((2:ℚ) / 1) = 2 by norm_num, max_eq_right (by norm_num : (3:ℚ) / 2 ≤ 2)]
    have hIC : iterCount 2 = 3 := by
      rw [iterCount, if_pos (by norm_num : (0:ℚ) ≤ 2),
        show ⌊(2:ℚ)⌋ = 2 from by norm_num]
      rfl
    rw [segmentWalkSpec_unfold gWide 0 0 3 2 2 hS, hIC,
      show List.range 3 = [0, 1, 2] from rfl]
    have hs0 : getCellAtPoint gWide (0 + ((0:ℕ) : ℚ) * ((3 - 0) / 2))
        (0 + ((0:ℕ) : ℚ) * ((2 - 0) / 2)) = some (0, 0) := by
      rw [show (0 + ((0:ℕ) : ℚ) * ((3 - 0) / 2)) = 0 by norm_num,
        show (0 + ((0:ℕ) : ℚ) * ((2 - 0) / 2)) = 0 by norm_num]
      exact hc00
    have hs1 : getCellAtPoint gWide (0 + ((1:ℕ) : ℚ) * ((3 - 0) / 2))
        (0 + ((1:ℕ) : ℚ) * ((2 - 0) / 2)) = some (1, 0) := by
      rw [show (0 + ((1:ℕ) : ℚ) * ((3 - 0) / 2)) = 3 / 2 by norm_num,
        show (0 + ((1:ℕ) : ℚ) * ((2 - 0) / 2)) = 1 by norm_num]
      refine getCellAtPoint_eval gWide (3 / 2) 1 1 0 ?_ ?_ ?_ ?_ ?_ ?_ <;>
        norm_num [gWide, mkGrid, Grid2D.right, Grid2D.bottom, Int.floor_eq_iff]
    have hs2 : getCellAtPoint gWide (0 + ((2:ℕ) : ℚ) * ((3 - 0) / 2))
        (0 + ((2:ℕ) : ℚ) * ((2 - 0) / 2)) = some (2, 1) := by
      rw [show (0 + ((2:ℕ) : ℚ) * ((3 - 0) / 2)) = 3 by norm_num,
        show (0 + ((2:ℕ) : ℚ) * ((2 - 0) / 2)) = 2 by norm_num]
      refine getCellAtPoint_eval gWide 3 2 2 1 ?_ ?_ ?_ ?_ ?_ ?_ <;>
        norm_num [gWide, mkGrid, Grid2D.right, Grid2D.bottom, Int.floor_eq_iff]
    rw [List.filterMap_cons, hs0]
    show (0, 0) :: List.filterMap _ [1, 2] = _
    rw [List.filterMap_cons, hs1]
    show (0, 0) :: (1, 0) :: List.filterMap _ [2] = _
    rw [List.filterMap_cons, hs2]
    show (0, 0) :: (1, 0) :: (2, 1) :: List.filterMap _ [] = _
    rw [List.filterMap_nil]

/-- Counterexample to C2 as stated (packaged): the source walk and the
spec's `max`-formula walk differ on `gWide` for the segment (0,0)-(3,2). -/
theorem claim2_cex :
    getCellsInSegment gWide (0, 0) (3, 2) 1 = [(0, 0), (1, 1)] ∧
      segmentWalkSpec gWide (0, 0) (3, 2) = [(0, 0), (1, 0), (2, 1)] ∧
      getCellsInSegment gWide (0, 0) (3, 2) 1 ≠ segmentWalkSpec gWide (0, 0) (3, 2) := by
  refine ⟨claim2_cex_parts.1, claim2_cex_parts.2, ?_⟩
  rw [claim2_cex_parts.1, claim2_cex_parts.2]
  decide

theorem gUnit_num_rows : gUnit.num_rows = 4 := by
  show ⌈(4:ℚ) / 1⌉ = 4; norm_num

theorem gUnit_num_columns : gUnit.num_columns = 4 := by
  show ⌈(4:ℚ) / 1⌉ = 4; norm_num

theorem gWide_num_rows : gWide.num_rows = 4 := by
  show ⌈(4:ℚ) / 1⌉ = 4; norm_num

theorem gWide_num_columns : gWide.num_columns = 2 := by
  show ⌈(4:ℚ) / 2⌉ = 2; rw [Int.ceil_eq_iff] <;> norm_num

theorem gCoarse_num_rows : gCoarse.num_rows = 3 := by
  show ⌈(6:ℚ) / 2⌉ = 3; rw [Int.ceil_eq_iff] <;> norm_num

theorem gCoarse_num_columns : gCoarse.num_columns = 3 := by
  show ⌈(6:ℚ) / 2⌉ = 3; rw [Int.ceil_eq_iff] <;> norm_num

theorem gLeft_num_rows : gLeft.num_rows = 4 := by
  show ⌈(4:ℚ) / 1⌉ = 4; norm_num

theorem gLeft_num_columns : gLeft.num_columns = 4 := by
  show ⌈(4:ℚ) / 1⌉ = 4; norm_num

/-- Claim C4 (amended): `getCellAtPoint(x, y)` is absent iff `pointInGrid`
(the CLOSED box `[left, right] × [top, bottom]`) fails; when present it is
the pair `(floor((y-top)/cellHeight), floor((x-left)/cellWidth))`; and that
pair satisfies `cellInGrid` whenever additionally `x < right` and
`y < bottom` — on the closed right/bottom edge the returned pair can be the
out-of-range row `num_rows` or column `num_columns`. -/
theorem claim4_point_to_cell (g : Grid2D ℤ) (x y : ℚ) :
    (getCellAtPoint g x y = none ↔ pointInGrid g x y 0 = false) ∧
    (∀ rc : ℤ × ℤ, getCellAtPoint g x y = some rc →
      rc = (⌊(y - g.top) / g.cellH⌋, ⌊(x - g.left) / g.cellW⌋)) ∧
    (0 < g.cellW → 0 < g.cellH → x < g.right → y < g.bottom →
      ∀ rc : ℤ × ℤ, getCellAtPoint g x y = some rc →
        cellInGrid g rc.1 rc.2 = true) := by
  refine ⟨?_, ?_, ?_⟩
  · cases h : pointInGrid g x y 0 <;> simp [getCellAtPoint, h]
  · intro rc hrc
    cases h : pointInGrid g x y 0 <;> rw [getCellAtPoint, h] at hrc
    · simp at hrc
    · simp at hrc; exact hrc.symm
  · intro hcw hch hx hy rc hrc
    cases h : pointInGrid g x y 0 <;> rw [getCellAtPoint, h] at hrc
    · simp at hrc
    · simp at hrc
      obtain ⟨hl, _, ht, _⟩ := (pointInGrid_iff g x y 0).mp h
      have hbot : g.bottom = g.top + g.height := rfl
      have hrt : g.right = g.left + g.width := rfl
      rw [← hrc, cellInGrid_iff]
      refine ⟨?_, ?_, ?_, ?_⟩
      · exact Int.floor_nonneg.mpr (div_nonneg (by linarith) hch.le)
      · rw [num_rows]
        refine Int.lt_ceil.mpr (lt_of_le_of_lt (Int.floor_le _) ?_)
        have hyh : y - g.top < g.height := by linarith
        gcongr
      · exact Int.floor_nonneg.mpr (div_nonneg (by linarith) hcw.le)
      · rw [num_columns]
        refine Int.lt_ceil.mpr (lt_of_le_of_lt (Int.floor_le _) ?_)
        have hxw : x - g.left < g.width := by linarith
        gcongr

/-- Witness for C4 on `gUnit` at the interior point (1/2, 1/2): the
absence criterion, the floor formula, and in-grid membership of the result
all hold there. -/
theorem claim4_witness :
    (getCellAtPoint gUnit (1/2) (1/2) = none ↔
      pointInGrid gUnit (1/2) (1/2) 0 = false) ∧
    getCellAtPoint gUnit (1/2) (1/2) = some (0, 0) ∧
    cellInGrid gUnit 0 0 = true := by
  obtain ⟨h1, h2, h3⟩ := claim4_point_to_cell gUnit (1/2) (1/2)
  have hsome : getCellAtPoint gUnit (1/2) (1/2) = some (0, 0) := by
    refine getCellAtPoint_eval gUnit (1/2) (1/2) 0 0 ?_ ?_ ?_ ?_ ?_ ?_ <;>
      norm_num [gUnit, mkGrid, Grid2D.right, Grid2D.bottom, Int.floor_eq_iff]
  have hcw : (0:ℚ) < gUnit.cellW := by norm_num [gUnit, mkGrid]
  have hch : (0:ℚ) < gUnit.cellH := by norm_num [gUnit, mkGrid]
  have hxr : (1/2 : ℚ) < gUnit.right := by
    norm_num [gUnit, mkGrid, Grid2D.right]
  have hyb : (1/2 : ℚ) < gUnit.bottom := by
    norm_num [gUnit, mkGrid, Grid2D.bottom]
  exact ⟨h1, hsome, h3 hcw hch hxr hyb (0, 0) hsome⟩

/-- Counterexample to C4 as stated: on `gUnit` (= `new Grid2D(4,4)`) the
boundary point (4, 0) is inside the CLOSED box, so `getCellAtPoint` returns
`(0, 4)` — but column 4 is out of range (`num_columns = 4`), refuting
"whenever the result is present it is a cell for which `cellInGrid`
holds". -/
theorem claim4_cex :
    getCellAtPoint gUnit 4 0 = some (0, 4) ∧ cellInGrid gUnit 0 4 = false := by
  constructor
  · refine getCellAtPoint_eval gUnit 4 0 0 4 ?_ ?_ ?_ ?_ ?_ ?_ <;>
      norm_num [gUnit, mkGrid, Grid2D.right, Grid2D.bottom]
  · rw [← Bool.not_eq_true, cellInGrid_iff, gUnit_num_rows, gUnit_num_columns]
    omega

/-- Claim C9: for every cell `(r, c)` lying fully inside the grid bounds
(its closing edges `(c+1)·cellW`, `(r+1)·cellH` within `width`/`height`),
`getCellAtPoint` applied to the point returned by `getCellCenter(r, c)`
yields the same cell `(r, c)`. -/
theorem claim9_roundtrip (g : Grid2D ℤ) (r c : ℤ) (hr0 : 0 ≤ r) (hc0 : 0 ≤ c)
    (hcw : 0 < g.cellW) (hch : 0 < g.cellH)
    (hfullc : ((c : ℚ) + 1) * g.cellW ≤ g.width)
    (hfullr : ((r : ℚ) + 1) * g.cellH ≤ g.height) :
    ∃ p : ℚ × ℚ, getCellCenter g r c = some p ∧
      getCellAtPoint g p.1 p.2 = some (r, c) := by
  have hcr : (0:ℚ) ≤ (r : ℚ) := by exact_mod_cast hr0
  have hcc : (0:ℚ) ≤ (c : ℚ) := by exact_mod_cast hc0
  have hcin : cellInGrid g r c = true := by
    rw [cellInGrid_iff]
    refine ⟨hr0, ?_, hc0, ?_⟩
    · rw [num_rows]
      refine Int.lt_ceil.mpr ?_
      rw [lt_div_iff hch]
      nlinarith
    · rw [num_columns]
      refine Int.lt_ceil.mpr ?_
      rw [lt_div_iff hcw]
      nlinarith
  have hrt : g.right = g.left + g.width := rfl
  have hbt : g.bottom = g.top + g.height := rfl
  have h12 : ⌊(1/2 : ℚ)⌋ = 0 := by rw [Int.floor_eq_iff]; norm_num
  refine ⟨(g.left + c * g.cellW + g.cellW / 2, g.top + r * g.cellH + g.cellH / 2),
    ?_, ?_⟩
  · rw [getCellCenter, if_pos hcin]
  · refine getCellAtPoint_eval g _ _ r c ?_ ?_ ?_ ?_ ?_ ?_
    · show g.left ≤ g.left + c * g.cellW + g.cellW / 2
      nlinarith
    · show g.left + c * g.cellW + g.cellW / 2 ≤ g.right
      rw [hrt]; nlinarith
    · show g.top ≤ g.top + r * g.cellH + g.cellH / 2
      nlinarith
    · show g.top + r * g.cellH + g.cellH / 2 ≤ g.bottom
      rw [hbt]; nlinarith
    · have harg : (g.top + r * g.cellH + g.cellH / 2 - g.top) / g.cellH =
          (r : ℚ) + 1/2 := by
        rw [div_eq_iff hch.ne']; ring
      rw [harg, Int.floor_int_add, h12]
      omega
    · have harg : (g.left + c * g.cellW + g.cellW / 2 - g.left) / g.cellW =
          (c : ℚ) + 1/2 := by
        rw [div_eq_iff hcw.ne']; ring
      rw [harg, Int.floor_int_add, h12]
      omega

/-- Witness for C9: round-trip at the interior cell (1, 1) of `gUnit`. -/
theorem claim9_roundtrip_witness :
    ∃ p : ℚ × ℚ, getCellCenter gUnit 1 1 = some p ∧
      getCellAtPoint gUnit p.1 p.2 = some (1, 1) := by
  refine claim9_roundtrip gUnit 1 1 (by norm_num) (by norm_num) ?_ ?_ ?_ ?_ <;>
    norm_num [gUnit, mkGrid]

theorem gUnit_data : gUnit.data = List.replicate 4 (List.replicate 4 (0:ℤ)) := by
  rw [show gUnit.data = List.replicate gUnit.num_rows.toNat
    (List.replicate gUnit.num_columns.toNat (0:ℤ)) from rfl,
    gUnit_num_rows, gUnit_num_columns]
  rfl

theorem gCoarse_data : gCoarse.data = List.replicate 3 (List.replicate 3 (0:ℤ)) := by
  rw [show gCoarse.data = List.replicate gCoarse.num_rows.toNat
    (List.replicate gCoarse.num_columns.toNat (0:ℤ)) from rfl,
    gCoarse_num_rows, gCoarse_num_columns]
  rfl

theorem gMark_num_rows : gMark.num_rows = 4 := by
  show ⌈(4:ℚ) / 1⌉ = 4; norm_num

theorem gMark_num_columns : gMark.num_columns = 4 := by
  show ⌈(4:ℚ) / 1⌉ = 4; norm_num

/-- The marked grid is the state the source produces:
`new Grid2D(4,4)` followed by `setValue(2, 2, 1)`. -/
theorem gMark_reachable : setValue gUnit 2 2 1 = gMark := by
  have hin : cellInGrid gUnit 2 2 = true := by
    rw [cellInGrid_iff, gUnit_num_rows, gUnit_num_columns]; omega
  rw [setValue, if_pos hin, gUnit_data]
  rfl

/-- Claim C3 is violated by the code (code bug): on `gLeft`
(= `new Grid2D(4,4,0,1,1,10,0)`, left edge at x = 10) the cell (0, 0) is
valid (`cellInGrid` holds), yet `getCellPoint(0, 0, 1/2, 1/2)` returns
absent — the source passes the cell INDICES `(0, 0)` to the coordinate
predicate `pointInGrid`, which fails because `0 < left = 10`.  The claim
requires the point `(10.5, 0.5)` here. -/
theorem claim3_getCellPoint_bug :
    cellInGrid gLeft 0 0 = true ∧ getCellPoint gLeft 0 0 (1/2) (1/2) = none := by
  constructor
  · rw [cellInGrid_iff, gLeft_num_rows, gLeft_num_columns]; omega
  · have h : pointInGrid gLeft (0 : ℚ) (0 : ℚ) 0 = false := by
      rw [← Bool.not_eq_true, pointInGrid_iff]
      rintro ⟨h1, -, -, -⟩
      rw [show gLeft.left = 10 from rfl] at h1
      norm_num at h1
    simp [getCellPoint, h]

/-- Claim C6 is violated by the code (code bug): `deepCopy` of the composite
initial value `[1]` throws a `ReferenceError` (its `reduce` callback calls
the unbound bare identifier `deepCopy` instead of `this.deepCopy`), so
`new Grid2D(2, 2, [1])` cannot even construct the grid, let alone give each
cell an independent deep copy. -/
theorem claim6_deepCopy_bug :
    JSVal.deepCopy (JSVal.arr [JSVal.num 1]) = none ∧
      JSVal.mkGridJS 2 2 (JSVal.arr [JSVal.num 1]) 1 1 0 0 = none := by
  constructor
  · rfl
  · rw [JSVal.mkGridJS, show ⌈(2:ℚ) / 1⌉ = 2 by norm_num]
    rfl

/-- Claim C1 is violated by the code (code bug): on `gCoarse`
(= `new Grid2D(6,6,0,2,2)`, a 3×3 grid of 2×2 cells) the boundary cell
(2, 2) is valid, and the claim requires the window center clamped to
(1, 1) and a sum over the full 3×3 grid (= 0 for all-ones weights and the
zero grid).  The source instead compares the row INDEX 2 with the
COORDINATES `top = 0` and `bottom - 1 = 5`, does not clamp, and reads
`this.data[1][3]` (then `this.data[3][...]`) out of range — a NaN/TypeError
in JS, `none` here. -/
theorem claim1_laplace_bug :
    cellInGrid gCoarse 2 2 = true ∧
      laplace3x3 gCoarse 2 2 (List.replicate 9 1) (fun v : ℤ => (v : ℚ)) = none := by
  constructor
  · rw [cellInGrid_iff, gCoarse_num_rows, gCoarse_num_columns]; omega
  · have hr : (if ((2:ℤ) : ℚ) = gCoarse.top then gCoarse.top + 1
        else if ((2:ℤ) : ℚ) = gCoarse.bottom - 1 then gCoarse.bottom - 2
        else ((2:ℤ) : ℚ)) = 2 := by
      rw [show gCoarse.top = 0 from rfl, show gCoarse.bottom = 0 + 6 from rfl]
      norm_num
    have hc : (if ((2:ℤ) : ℚ) = gCoarse.left then gCoarse.left + 1
        else if ((2:ℤ) : ℚ) = gCoarse.right - 1 then gCoarse.right - 2
        else ((2:ℤ) : ℚ)) = 2 := by
      rw [show gCoarse.left = 0 from rfl, show gCoarse.right = 0 + 6 from rfl]
      norm_num
    have hq1 : qRead gCoarse 1 1 = some 0 := by
      simp only [qRead]; rw [gCoarse_data]; decide
    have hq2 : qRead gCoarse 1 2 = some 0 := by
      simp only [qRead]; rw [gCoarse_data]; decide
    have hq3 : qRead gCoarse 1 3 = none := by
      simp only [qRead]; rw [gCoarse_data]; decide
    simp only [laplace3x3]
    rw [hr, hc]
    norm_num
    rw [hq1, hq2, hq3]

/-- Characterization of the `trueInASegment` loop when every visited cell
read succeeds: it returns `some b` with `b` the universal quantification of
the condition over the visited values. -/
theorem segAll_eval (g : Grid2D ℤ) (cond : ℤ → Bool) (l : List (ℤ × ℤ))
    (h : ∀ rc ∈ l, ∃ v, cellRead g rc.1 rc.2 = some v) :
    ∃ b, segAll g cond l = some b ∧
      (b = true ↔ ∀ rc ∈ l, ∀ v, cellRead g rc.1 rc.2 = some v → cond v = true) := by
  induction l with
  | nil => exact ⟨true, rfl, by simp⟩
  | cons rc rest ih =>
    obtain ⟨v, hv⟩ := h rc (List.mem_cons_self rc rest)
    obtain ⟨b, hb, hiff⟩ := ih (fun x hx => h x (List.mem_cons_of_mem _ hx))
    by_cases hcv : cond v = true
    · refine ⟨b, ?_, ?_⟩
      · show segAll g cond (rc :: rest) = some b
        simp only [segAll]
        rw [hv]
        show (if cond v = true then segAll g cond rest else some false) = some b
        rw [if_pos hcv]
        exact hb
      · rw [hiff]
        constructor
        · intro hall x hx w hw
          rcases List.mem_cons.mp hx with hxe | hxm
          · subst hxe
            rw [hv] at hw
            cases hw
            exact hcv
          · exact hall x hxm w hw
        · intro hall x hx w hw
          exact hall x (List.mem_cons_of_mem _ hx) w hw
    · refine ⟨false, ?_, ?_⟩
      · show segAll g cond (rc :: rest) = some false
        simp only [segAll]
        rw [hv]
        show (if cond v = true then segAll g cond rest else some false) = some false
        rw [if_neg hcv]
      · constructor
        · intro hfalse; exact absurd hfalse (by simp)
        · intro hall
          exact absurd (hall rc (List.mem_cons_self rc rest) v hv) hcv

/-- Claim C5 (amended): provided every cell index produced by
`getCellsInSegment` is a valid grid cell (which fails on the closed
right/bottom boundary, see the counterexample) and the grid is well formed,
`trueInASegment(p1, p2, step, condition)` reads only valid indices and
returns true iff `condition` holds for every visited cell value — vacuously
true when the collected sequence is empty. -/
theorem claim5_trueInASegment (g : Grid2D ℤ) (p1 p2 : ℚ × ℚ) (step : ℚ)
    (cond : ℤ → Bool) (hWF : WF g)
    (hcells : ∀ rc ∈ getCellsInSegment g p1 p2 step, cellInGrid g rc.1 rc.2 = true) :
    ∃ b, trueInASegment g p1 p2 step cond = some b ∧
      (b = true ↔ ∀ rc ∈ getCellsInSegment g p1 p2 step,
        ∀ v, cellRead g rc.1 rc.2 = some v → cond v = true) := by
  refine segAll_eval g cond (getCellsInSegment g p1 p2 step) ?_
  intro rc hrc
  obtain ⟨h0r, h1r, h0c, h1c⟩ := (cellInGrid_iff g rc.1 rc.2).mp (hcells rc hrc)
  exact cellRead_isSome_of_WF g rc.1 rc.2 hWF h0r h1r h0c h1c

/-- Witness for C5: on `gUnit`, the segment from (1/2, 1/2) to (5/2, 1/2)
visits cells (0,0), (0,1), (0,2) — all valid — and the trivial condition
holds on all of them. -/
theorem claim5_trueInASegment_witness :
    ∃ b, trueInASegment gUnit (1/2, 1/2) (5/2, 1/2) 1 (fun _ => true) = some b ∧
      (b = true ↔ ∀ rc ∈ getCellsInSegment gUnit (1/2, 1/2) (5/2, 1/2) 1,
        ∀ v, cellRead gUnit rc.1 rc.2 = some v → (fun _ : ℤ => true) v = true) := by
  refine claim5_trueInASegment gUnit (1/2, 1/2) (5/2, 1/2) 1 (fun _ => true)
    (mkGrid_WF 4 4 0 1 1 0 0) ?_
  have hS : (if |(5/2 : ℚ) - 1/2| > |(1/2 : ℚ) - 1/2| then |(5/2 : ℚ) - 1/2| / gUnit.cellW
      else |(1/2 : ℚ) - 1/2| / gUnit.cellH) = 2 := by
    rw [show |(5/2 : ℚ) - 1/2| = 2 by rw [abs_of_nonneg] <;> norm_num,
      show |(1/2 : ℚ) - 1/2| = 0 by norm_num,
      if_pos (by norm_num : (2:ℚ) > 0)]
    show (2:ℚ) / 1 = 2
    norm_num
  have hIC : iterCount 2 = 3 := by
    rw [iterCount, if_pos (by norm_num : (0:ℚ) ≤ 2), show ⌊(2:ℚ)⌋ = 2 from by norm_num]
    rfl
  have hcellA : getCellAtPoint gUnit (1/2) (1/2) = some (0, 0) := by
    refine getCellAtPoint_eval gUnit (1/2) (1/2) 0 0 ?_ ?_ ?_ ?_ ?_ ?_ <;>
      norm_num [gUnit, mkGrid, Grid2D.right, Grid2D.bottom, Int.floor_eq_iff]
  have hcellB : getCellAtPoint gUnit (1/2 + 1) (1/2 + 0) = some (0, 1) := by
    refine getCellAtPoint_eval gUnit (1/2 + 1) (1/2 + 0) 0 1 ?_ ?_ ?_ ?_ ?_ ?_ <;>
      norm_num [gUnit, mkGrid, Grid2D.right, Grid2D.bottom, Int.floor_eq_iff]
  have hcellC : getCellAtPoint gUnit (1/2 + 1 + 1) (1/2 + 0 + 0) = some (0, 2) := by
    refine getCellAtPoint_eval gUnit (1/2 + 1 + 1) (1/2 + 0 + 0) 0 2 ?_ ?_ ?_ ?_ ?_ ?_ <;>
      norm_num [gUnit, mkGrid, Grid2D.right, Grid2D.bottom, Int.floor_eq_iff]
  have hlist : getCellsInSegment gUnit (1/2, 1/2) (5/2, 1/2) 1 = [(0,0), (0,1), (0,2)] := by
    rw [getCellsInSegment_unfold gUnit (1/2) (1/2) (5/2) (1/2) 1 2 hS,
      show ((5/2 : ℚ) - 1/2) / 2 = 1 by norm_num,
      show ((1/2 : ℚ) - 1/2) / 2 = 0 by norm_num, hIC,
      show (3:ℕ) = 2 + 1 from rfl, segLoop_succ, hcellA]
    show (0, 0) :: segLoop gUnit 1 0 2 (1/2 + 1) (1/2 + 0) = _
    rw [show (2:ℕ) = 1 + 1 from rfl, segLoop_succ, hcellB]
    show (0, 0) :: (0, 1) :: segLoop gUnit 1 0 1 (1/2 + 1 + 1) (1/2 + 0 + 0) = _
    rw [show (1:ℕ) = 0 + 1 from rfl, segLoop_succ, hcellC]
    show (0, 0) :: (0, 1) :: (0, 2) ::
      segLoop gUnit 1 0 0 (1/2 + 1 + 1 + 1) (1/2 + 0 + 0 + 0) = _
    rw [segLoop_zero]
  rw [hlist]
  intro rc hrc
  simp only [List.mem_cons, List.not_mem_nil, or_false] at hrc
  rcases hrc with rfl | rfl | rfl <;>
    (rw [cellInGrid_iff, gUnit_num_rows, gUnit_num_columns]; omega)

/-- Counterexample to C5 as stated: on `gUnit` the degenerate segment at the
boundary point (0, 4) collects the INVALID cell index (4, 0) (row 4 of a
4-row grid), and `trueInASegment` then reads `this.data[4][0]` — a
`TypeError` in JS (`none` here), refuting both "only reads valid indices"
and the claimed boolean result. -/
theorem claim5_cex :
    getCellsInSegment gUnit (0, 4) (0, 4) 1 = [(4, 0)] ∧
      cellInGrid gUnit 4 0 = false ∧
      trueInASegment gUnit (0, 4) (0, 4) 1 (fun _ => true) = none := by
  have hS : (if |(0:ℚ) - 0| > |(4:ℚ) - 4| then |(0:ℚ) - 0| / gUnit.cellW
      else |(4:ℚ) - 4| / gUnit.cellH) = 0 := by norm_num
  have hIC : iterCount 0 = 1 := by
    rw [iterCount, if_pos le_rfl, show ⌊(0:ℚ)⌋ = 0 from by norm_num]
    rfl
  have hcell : getCellAtPoint gUnit 0 4 = some (4, 0) := by
    refine getCellAtPoint_eval gUnit 0 4 4 0 ?_ ?_ ?_ ?_ ?_ ?_ <;>
      norm_num [gUnit, mkGrid, Grid2D.right, Grid2D.bottom]
  have hlist : getCellsInSegment gUnit (0, 4) (0, 4) 1 = [(4, 0)] := by
    rw [getCellsInSegment_unfold gUnit 0 4 0 4 1 0 hS,
      show ((0:ℚ) - 0) / 0 = 0 by norm_num, show ((4:ℚ) - 4) / 0 = 0 by norm_num, hIC,
      show (1:ℕ) = 0 + 1 from rfl, segLoop_succ, hcell]
    show (4, 0) :: segLoop gUnit 0 0 0 (0 + 0) (4 + 0) = _
    rw [segLoop_zero]
  have hread : cellRead gUnit 4 0 = none := by
    simp only [cellRead, jsGet]
    rw [gUnit_data]
    decide
  refine ⟨hlist, ?_, ?_⟩
  · rw [← Bool.not_eq_true, cellInGrid_iff, gUnit_num_rows]
    omega
  · rw [trueInASegment, hlist]
    simp [segAll, hread]

theorem if_pos_max (a : ℤ) : (if a > 0 then a else 0) = max a 0 := by
  by_cases h : a > 0
  · rw [if_pos h, max_eq_left (by omega)]
  · rw [if_neg h, max_eq_right (by omega)]

theorem if_gt_min (a b : ℤ) : (if a > b then b else a) = min a b := by
  by_cases h : a > b
  · rw [if_pos h, min_eq_right (by omega)]
  · rw [if_neg h, min_eq_left (by omega)]

/-- Characterization of the inner (column) loop of
`trueForAtLeastOneNeighbor` when every visited read succeeds. -/
theorem neighborColsAny_eval (g : Grid2D ℤ) (cond : ℤ → Bool) (r : ℤ) :
    ∀ (n : ℕ) (c : ℤ),
      (∀ j : ℕ, j < n → ∃ v, cellRead g r (c + (j : ℤ)) = some v) →
      ∃ b, neighborColsAny g cond r n c = some b ∧
        (b = true ↔ ∃ j : ℕ, j < n ∧
          ∃ v, cellRead g r (c + (j : ℤ)) = some v ∧ cond v = true) := by
  intro n
  induction n with
  | zero =>
    intro c _
    exact ⟨false, rfl, by simp⟩
  | succ n ih =>
    intro c h
    have hv0 := h 0 (Nat.succ_pos n)
    rw [show c + ((0:ℕ) : ℤ) = c by simp] at hv0
    obtain ⟨v, hv⟩ := hv0
    have hshift : ∀ j : ℕ, j < n → ∃ w, cellRead g r ((c + 1) + (j : ℤ)) = some w := by
      intro j hj
      have hw := h (j + 1) (by omega)
      rwa [show c + ((j + 1 : ℕ) : ℤ) = (c + 1) + (j : ℤ) by push_cast; ring] at hw
    obtain ⟨b, hb, hiff⟩ := ih (c + 1) hshift
    by_cases hcv : cond v = true
    · refine ⟨true, ?_, ?_⟩
      · show neighborColsAny g cond r (n + 1) c = some true
        simp only [neighborColsAny]
        rw [hv]
        show (if cond v = true then some true
          else neighborColsAny g cond r n (c + 1)) = some true
        rw [if_pos hcv]
      · constructor
        · intro _
          exact ⟨0, Nat.succ_pos n, v, by simpa using hv, hcv⟩
        · intro _; rfl
    · refine ⟨b, ?_, ?_⟩
      · show neighborColsAny g cond r (n + 1) c = some b
        simp only [neighborColsAny]
        rw [hv]
        show (if cond v = true then some true
          else neighborColsAny g cond r n (c + 1)) = some b
        rw [if_neg hcv]
        exact hb
      · rw [hiff]
        constructor
        · rintro ⟨j, hj, w, hw, hcw⟩
          refine ⟨j + 1, by omega, w, ?_, hcw⟩
          rw [show c + ((j + 1 : ℕ) : ℤ) = (c + 1) + (j : ℤ) by push_cast; ring]
          exact hw
        · rintro ⟨j, hj, w, hw, hcw⟩
          cases j with
          | zero =>
            exfalso
            rw [show c + ((0:ℕ) : ℤ) = c by simp, hv] at hw
            cases hw
            exact hcv hcw
          | succ m =>
            refine ⟨m, by omega, w, ?_, hcw⟩
            rwa [show c + ((m + 1 : ℕ) : ℤ) = (c + 1) + (m : ℤ) by push_cast; ring] at hw

/-- Characterization of the outer (row) loop of `trueForAtLeastOneNeighbor`
when every visited read succeeds. -/
theorem neighborRowsAny_eval (g : Grid2D ℤ) (cond : ℤ → Bool) (startC : ℤ)
    (colFuel : ℕ) :
    ∀ (n : ℕ) (r : ℤ),
      (∀ i : ℕ, i < n → ∀ j : ℕ, j < colFuel →
        ∃ v, cellRead g (r + (i : ℤ)) (startC + (j : ℤ)) = some v) →
      ∃ b, neighborRowsAny g cond startC colFuel n r = some b ∧
        (b = true ↔ ∃ i : ℕ, i < n ∧ ∃ j : ℕ, j < colFuel ∧
          ∃ v, cellRead g (r + (i : ℤ)) (startC + (j : ℤ)) = some v ∧
            cond v = true) := by
  intro n
  induction n with
  | zero =>
    intro r _
    exact ⟨false, rfl, by simp⟩
  | succ n ih =>
    intro r h
    have hrow0 : ∀ j : ℕ, j < colFuel → ∃ v, cellRead g r (startC + (j : ℤ)) = some v := by
      intro j hj
      have hw := h 0 (Nat.succ_pos n) j hj
      rwa [show r + ((0:ℕ) : ℤ) = r by simp] at hw
    obtain ⟨b0, hb0, hiff0⟩ := neighborColsAny_eval g cond r colFuel startC hrow0
    have hshift : ∀ i : ℕ, i < n → ∀ j : ℕ, j < colFuel →
        ∃ v, cellRead g ((r + 1) + (i : ℤ)) (startC + (j : ℤ)) = some v := by
      intro i hi j hj
      have hw := h (i + 1) (by omega) j hj
      rwa [show r + ((i + 1 : ℕ) : ℤ) = (r + 1) + (i : ℤ) by push_cast; ring] at hw
    obtain ⟨b, hb, hiff⟩ := ih (r + 1) hshift
    cases b0 with
    | true =>
      refine ⟨true, ?_, ?_⟩
      · show neighborRowsAny g cond startC colFuel (n + 1) r = some true
        simp only [neighborRowsAny]
        rw [hb0]
      · constructor
        · intro _
          obtain ⟨j, hj, v, hv, hcv⟩ := hiff0.mp rfl
          exact ⟨0, Nat.succ_pos n, j, hj, v, by simpa using hv, hcv⟩
        · intro _; rfl
    | false =>
      refine ⟨b, ?_, ?_⟩
      · show neighborRowsAny g cond startC colFuel (n + 1) r = some b
        simp only [neighborRowsAny]
        rw [hb0]
        exact hb
      · rw [hiff]
        constructor
        · rintro ⟨i, hi, j, hj, v, hv, hcv⟩
          refine ⟨i + 1, by omega, j, hj, v, ?_, hcv⟩
          rw [show r + ((i + 1 : ℕ) : ℤ) = (r + 1) + (i : ℤ) by push_cast; ring]
          exact hv
        · rintro ⟨i, hi, j, hj, v, hv, hcv⟩
          cases i with
          | zero =>
            exfalso
            rw [show r + ((0:ℕ) : ℤ) = r by simp] at hv
            exact absurd (hiff0.mpr ⟨j, hj, v, hv, hcv⟩) (by simp)
          | succ m =>
            refine ⟨m, by omega, j, hj, v, ?_, hcv⟩
            rwa [show r + ((m + 1 : ℕ) : ℤ) = (r + 1) + (m : ℤ) by push_cast; ring] at hv

/-- Claim C7 (amended): for every in-bounds `(row, col)`, `distance > 0` and
condition, `trueForAtLeastOneNeighbor` examines the HALF-OPEN box
`[max(row-d,0), min(row+d, num_rows)) × [max(col-d,0), min(col+d, num_columns))`
— NOT the inclusive box `trueForEveryNeighbor` examines (whose unclamped
ends `row+d`, `col+d` are included) — and returns true iff at least one
cell of that half-open box satisfies the condition. -/
theorem claim7_atLeastOneNeighbor (g : Grid2D ℤ) (row col dist : ℤ)
    (cond : ℤ → Bool) (hWF : WF g) (hin : cellInGrid g row col = true)
    (hd : 0 < dist) :
    ∃ b, trueForAtLeastOneNeighbor g row col dist cond = some b ∧
      (b = true ↔ ∃ rr cc : ℤ,
        max (row - dist) 0 ≤ rr ∧ rr < min (row + dist) g.num_rows ∧
        max (col - dist) 0 ≤ cc ∧ cc < min (col + dist) g.num_columns ∧
        ∃ v, cellRead g rr cc = some v ∧ cond v = true) := by
  obtain ⟨h0r, h1r, h0c, h1c⟩ := (cellInGrid_iff g row col).mp hin
  have hunfold : trueForAtLeastOneNeighbor g row col dist cond =
      neighborRowsAny g cond (max (col - dist) 0)
        (min (col + dist) g.num_columns - max (col - dist) 0).toNat
        (min (row + dist) g.num_rows - max (row - dist) 0).toNat
        (max (row - dist) 0) := by
    simp only [trueForAtLeastOneNeighbor,
      if_neg (show ¬ dist ≤ 0 from by omega), if_pos_max, if_gt_min]
  have hvalid : ∀ i : ℕ, i < (min (row + dist) g.num_rows - max (row - dist) 0).toNat →
      ∀ j : ℕ, j < (min (col + dist) g.num_columns - max (col - dist) 0).toNat →
      ∃ v, cellRead g (max (row - dist) 0 + (i : ℤ)) (max (col - dist) 0 + (j : ℤ)) =
        some v := by
    intro i hi j hj
    refine cellRead_isSome_of_WF g _ _ hWF ?_ ?_ ?_ ?_ <;> omega
  obtain ⟨b, hb, hiff⟩ := neighborRowsAny_eval g cond (max (col - dist) 0)
    (min (col + dist) g.num_columns - max (col - dist) 0).toNat
    (min (row + dist) g.num_rows - max (row - dist) 0).toNat
    (max (row - dist) 0) hvalid
  refine ⟨b, by rw [hunfold]; exact hb, ?_⟩
  rw [hiff]
  constructor
  · rintro ⟨i, hi, j, hj, v, hv, hcv⟩
    exact ⟨max (row - dist) 0 + (i : ℤ), max (col - dist) 0 + (j : ℤ),
      by omega, by omega, by omega, by omega, v, hv, hcv⟩
  · rintro ⟨rr, cc, hb1, hb2, hb3, hb4, v, hv, hcv⟩
    refine ⟨(rr - max (row - dist) 0).toNat, by omega,
      (cc - max (col - dist) 0).toNat, by omega, v, ?_, hcv⟩
    rw [show max (row - dist) 0 + ((rr - max (row - dist) 0).toNat : ℤ) = rr by omega,
      show max (col - dist) 0 + ((cc - max (col - dist) 0).toNat : ℤ) = cc by omega]
    exact hv

/-- Witness for C7 (amended) at `gUnit`, center (1,1), distance 1, with the
condition `value == 0` (true of every cell of the zero grid). -/
theorem claim7_atLeastOneNeighbor_witness :
    ∃ b, trueForAtLeastOneNeighbor gUnit 1 1 1 (fun v => v == 0) = some b ∧
      (b = true ↔ ∃ rr cc : ℤ,
        max ((1:ℤ) - 1) 0 ≤ rr ∧ rr < min ((1:ℤ) + 1) gUnit.num_rows ∧
        max ((1:ℤ) - 1) 0 ≤ cc ∧ cc < min ((1:ℤ) + 1) gUnit.num_columns ∧
        ∃ v, cellRead gUnit rr cc = some v ∧ (v == 0) = true) := by
  refine claim7_atLeastOneNeighbor gUnit 1 1 1 (fun v => v == 0)
    (mkGrid_WF 4 4 0 1 1 0 0) ?_ (by norm_num)
  rw [cellInGrid_iff, gUnit_num_rows, gUnit_num_columns]
  omega

/-- Counterexample to C7 as stated: on `gMark` the cell (2, 2) holds 1; it
lies in the clamped distance-1 box around (1, 1) (the inclusive box rows
0..2 × cols 0..2 that `trueForEveryNeighbor` examines — its result on the
negated condition shows that box contains a 1), yet
`trueForAtLeastOneNeighbor(1, 1, 1, v == 1)` returns false: its strict
loop bounds stop at row/column `< 2`, a strictly smaller box. -/
theorem claim7_cex :
    cellRead gMark 2 2 = some 1 ∧
      trueForAtLeastOneNeighbor gMark 1 1 1 (fun v => v == 1) = some false ∧
      trueForEveryNeighbor gMark 1 1 1 (fun v => !(v == 1)) = some false := by
  refine ⟨by decide, ?_, ?_⟩
  · simp only [trueForAtLeastOneNeighbor, if_neg (show ¬ (1:ℤ) ≤ 0 from by norm_num)]
    rw [gMark_num_rows, gMark_num_columns]
    decide
  · simp only [trueForEveryNeighbor, if_neg (show ¬ (1:ℤ) ≤ 0 from by norm_num)]
    rw [gMark_num_rows, gMark_num_columns]
    decide
